import Mathlib

/-!
Verification of the finance engine of `etf_saver_gui.py`.

The engine consists of pure closed-form annuity functions and two
month-by-month simulation loops.  Functions whose inputs and arithmetic
stay in the field of the arguments are embedded over `ℚ` (every machine
float is a rational, and the claims are about exact arithmetic); the
annual-to-monthly rate conversion uses a real twelfth root, so the
functions that call it internally are embedded over `ℝ`.  Code that
raises `ValueError` (or can hit a `ZeroDivisionError`) is embedded as
`Except String`.
-/

namespace EtfSaver

/-- Embeds `annual_to_monthly_rate`: convert annual CAGR % to effective
monthly rate, `i = (1+r)^(1/12) - 1`. -/
noncomputable def annual_to_monthly_rate (r_annual_pct : ℝ) : ℝ :=
  (1 + r_annual_pct / 100) ^ ((1 : ℝ) / 12) - 1

/-- Embeds `fv_annuity`: future value of an annuity, monthly compounding;
`due = true` means annuity-due (deposit at period start). -/
def fv_annuity (pmt i : ℚ) (n : ℕ) (due : Bool) : ℚ :=
  let fv := if i = 0 then pmt * n else pmt * ((1 + i) ^ n - 1) / i
  if due then fv * (1 + i) else fv

/-- Embeds `fv_with_principal`. -/
def fv_with_principal (pv pmt i : ℚ) (n : ℕ) (due : Bool) : ℚ :=
  pv * (1 + i) ^ n + fv_annuity pmt i n due

/-- The factor computed inside `solve_pmt_for_target_fv` (lines 107-109 of
the source): `n` when `i = 0`, else `((1+i)^n - 1)/i`, times `(1+i)` when
`due` and `i ≠ 0`. -/
def annuity_factor (i : ℚ) (n : ℕ) (due : Bool) : ℚ :=
  let factor := if i = 0 then (n : ℚ) else ((1 + i) ^ n - 1) / i
  if due = true ∧ i ≠ 0 then factor * (1 + i) else factor

/-- Embeds `solve_pmt_for_target_fv`; the `ValueError` on a degenerate
factor becomes `Except.error`.  The float literal `1e-12` is read as the
decimal rational it denotes. -/
def solve_pmt_for_target_fv (fv_target pv i : ℚ) (n : ℕ) (due : Bool) :
    Except String ℚ :=
  let factor := annuity_factor i n due
  let numer := fv_target - pv * (1 + i) ^ n
  if |factor| < 1 / 10 ^ 12 then
    Except.error "因子過小，無法反推每月投入。請調整參數。"
  else
    Except.ok (numer / factor)

/-- Embeds `monthly_dividend_income`. -/
def monthly_dividend_income (principal dividend_yield_pct : ℚ) : ℚ :=
  principal * (dividend_yield_pct / 100) / 12

/-- Embeds `required_principal_for_dividend`; the `ValueError` on a
non-positive yield becomes `Except.error`. -/
def required_principal_for_dividend (target_monthly dividend_yield_pct : ℚ) :
    Except String ℚ :=
  let y := dividend_yield_pct / 100
  if y ≤ 0 then Except.error "殖利率需大於 0。"
  else Except.ok (target_monthly * 12 / y)

/-- Embeds Python's built-in `round` on the exact value: nearest integer,
ties to the even integer (used as `int(round(years * 12))` in the source). -/
noncomputable def pyround (x : ℝ) : ℤ :=
  if x - ⌊x⌋ < 1 / 2 then ⌊x⌋
  else if 1 / 2 < x - ⌊x⌋ then ⌊x⌋ + 1
  else if 2 ∣ ⌊x⌋ then ⌊x⌋ else ⌊x⌋ + 1

/-- Embeds `monthly_withdraw_for_years`.  The `ValueError` on a
non-positive month count becomes the first `Except.error`; the two
`"ZeroDivisionError"` branches model Python raising `ZeroDivisionError`
on `0.0 ** (-m)` and on division by an exactly zero denominator. -/
noncomputable def monthly_withdraw_for_years (corpus annual_return_pct years : ℝ) :
    Except String ℝ :=
  if pyround (years * 12) ≤ 0 then Except.error "退休年期需大於 0。"
  else if annual_to_monthly_rate annual_return_pct = 0 then
    Except.ok (corpus / (pyround (years * 12) : ℝ))
  else if 1 + annual_to_monthly_rate annual_return_pct = 0 then
    Except.error "ZeroDivisionError"
  else if 1 - (1 + annual_to_monthly_rate annual_return_pct) ^ (-(pyround (years * 12))) = 0 then
    Except.error "ZeroDivisionError"
  else
    Except.ok (corpus * annual_to_monthly_rate annual_return_pct /
      (1 - (1 + annual_to_monthly_rate annual_return_pct) ^ (-(pyround (years * 12)))))

/-- One iteration of the `simulate_growth` loop body: deposit at start of
month (`due`) or at end of month. -/
def growth_step (pmt i : ℚ) (due : Bool) (bal : ℚ) : ℚ :=
  if due then (bal + pmt) * (1 + i) else bal * (1 + i) + pmt

/-- The balances appended by the `simulate_growth` loop after the initial
entry. -/
def growth_go (pmt i : ℚ) (due : Bool) : ℚ → ℕ → List ℚ
  | _, 0 => []
  | bal, m + 1 =>
    growth_step pmt i due bal :: growth_go pmt i due (growth_step pmt i due bal) m

/-- Embeds `simulate_growth`: list of balances each month, starting at
`pv` (length `months + 1`). -/
def simulate_growth (pv pmt i : ℚ) (months : ℕ) (due : Bool) : List ℚ :=
  pv :: growth_go pmt i due pv months

/-- One iteration of the `simulate_drawdown` loop body on the raw
(unfloored) running balance: grow for the month, then withdraw at end. -/
def drawdown_step {K : Type} [LinearOrderedField K] (j w bal : K) : K :=
  bal * (1 + j) - w

/-- The balances appended by the `simulate_drawdown` loop: each appended
entry is floored at zero, and the loop breaks once the raw balance is
`≤ 0`.  Polymorphic over the field so it can be evaluated over `ℚ` and
stated over `ℝ`. -/
def drawdown_go {K : Type} [LinearOrderedField K] (j w : K) : K → ℕ → List K
  | _, 0 => []
  | bal, m + 1 =>
    if drawdown_step j w bal ≤ 0 then [max (drawdown_step j w bal) 0]
    else max (drawdown_step j w bal) 0 :: drawdown_go j w (drawdown_step j w bal) m

/-- The `simulate_drawdown` loop for a given monthly rate `j`. -/
def simulate_drawdown_core {K : Type} [LinearOrderedField K]
    (corpus monthly_withdraw j : K) (months : ℕ) : List K :=
  corpus :: drawdown_go j monthly_withdraw corpus months

/-- Embeds `simulate_drawdown`: balance path during retirement
withdrawals (end-of-month withdraw), with the annual return converted to
a monthly rate first. -/
noncomputable def simulate_drawdown (corpus monthly_withdraw annual_return_pct : ℝ)
    (months : ℕ) : List ℝ :=
  simulate_drawdown_core corpus monthly_withdraw
    (annual_to_monthly_rate annual_return_pct) months

/-- Embeds the weight-normalization fragment of `on_port_calc`
(lines 648-652 of the source): error when the total weight is not
positive, otherwise scale each weight by `100 / total`. -/
def normalize_weights (weights : List ℚ) : Except String (List ℚ) :=
  let total_w := weights.sum
  if total_w ≤ 0 then Except.error "權重總和需大於 0。"
  else Except.ok (weights.map (fun w => w / total_w * 100))

/-! ### Helper lemmas -/

/-- A zero annual rate converts to a zero monthly rate. -/
lemma annual_to_monthly_rate_zero : annual_to_monthly_rate 0 = 0 := by
  unfold annual_to_monthly_rate
  norm_num [Real.one_rpow]

/-- `fv_annuity` is the payment times the factor computed inside
`solve_pmt_for_target_fv`. -/
lemma fv_annuity_eq_factor (pmt i : ℚ) (n : ℕ) (due : Bool) :
    fv_annuity pmt i n due = pmt * annuity_factor i n due := by
  unfold fv_annuity annuity_factor
  by_cases hi : i = 0
  · subst hi
    cases due <;> simp
  · cases due <;> simp [hi] <;> ring

/-- `pyround` fixes the integers. -/
lemma pyround_intCast (k : ℤ) : pyround (k : ℝ) = k := by
  unfold pyround
  rw [Int.floor_intCast]
  norm_num

/-! ### C8: zero-rate annuity degenerates to `payment * months` -/

/-- C8: for every payment, month count and timing flag, `fv_annuity` at
rate `0` equals `pmt * n` exactly, with no division by zero. -/
theorem fv_annuity_zero_rate_c8 (pmt : ℚ) (n : ℕ) (due : Bool) :
    fv_annuity pmt 0 n due = pmt * n := by
  cases due <;> simp [fv_annuity]

/-! ### C6: rate conversion round trip -/

/-- C6: for every annual percentage rate `r > -100`, compounding the
converted monthly rate twelve times recovers the annual rate,
`(1 + annual_to_monthly_rate r)^12 - 1 = r/100`; and the zero rate
converts to the zero monthly rate with no special case. -/
theorem rate_conversion_c6 (r : ℝ) (h : -100 < r) :
    (1 + annual_to_monthly_rate r) ^ (12 : ℕ) - 1 = r / 100
    ∧ annual_to_monthly_rate 0 = 0 := by
  refine ⟨?_, annual_to_monthly_rate_zero⟩
  have hx : (0 : ℝ) < 1 + r / 100 := by linarith
  have h1 : 1 + annual_to_monthly_rate r = (1 + r / 100) ^ ((1 : ℝ) / 12) := by
    unfold annual_to_monthly_rate; ring
  rw [h1, ← Real.rpow_natCast ((1 + r / 100) ^ ((1 : ℝ) / 12)) 12,
    ← Real.rpow_mul hx.le]
  norm_num

/-- Witness for C6 at the historical-scenario rate `r = 7`. -/
theorem rate_conversion_c6_witness :
    (-100 : ℝ) < 7
    ∧ ((1 + annual_to_monthly_rate 7) ^ (12 : ℕ) - 1 = 7 / 100
      ∧ annual_to_monthly_rate 0 = 0) :=
  ⟨by norm_num, rate_conversion_c6 7 (by norm_num)⟩

/-! ### C7: dividend sizing functions are mutual inverses -/

/-- C7: for every yield `y > 0` the two dividend functions are exact
mutual inverses (`required_principal_for_dividend` returns
`t * 12 / (y/100)` and feeding results through the other function is the
identity), and `required_principal_for_dividend` errors exactly when the
yield is `≤ 0`. -/
theorem dividend_inverses_c7 (t p y : ℚ) :
    (0 < y →
      required_principal_for_dividend t y = Except.ok (t * 12 / (y / 100))
      ∧ monthly_dividend_income (t * 12 / (y / 100)) y = t
      ∧ required_principal_for_dividend (monthly_dividend_income p y) y = Except.ok p)
    ∧ ((∃ msg, required_principal_for_dividend t y = Except.error msg) ↔ y ≤ 0) := by
  have h100 : ¬(y / 100 ≤ 0) ↔ ¬(y ≤ 0) := by
    constructor <;> intro h h2 <;> exact h (by linarith)
  constructor
  · intro hy
    have hy0 : y ≠ 0 := ne_of_gt hy
    have hneg : ¬(y / 100 ≤ 0) := h100.mpr (not_le.mpr hy)
    refine ⟨?_, ?_, ?_⟩
    · unfold required_principal_for_dividend
      rw [if_neg hneg]
    · unfold monthly_dividend_income
      field_simp
    · unfold required_principal_for_dividend monthly_dividend_income
      rw [if_neg hneg]
      congr 1
      field_simp
      ring
  · unfold required_principal_for_dividend
    by_cases hle : y / 100 ≤ 0
    · rw [if_pos hle]
      simp only [Except.error.injEq, exists_eq']
      exact iff_of_true trivial (by linarith)
    · rw [if_neg hle]
      simp only [reduceCtorEq, exists_false]
      exact iff_of_false (fun h => h) (h100.mp hle)

/-- Witness for C7 at the spec's example: principal 1,000,000 at yield 3%
gives monthly income 2,500, and target income 20,000 at yield 3% needs
principal 8,000,000. -/
theorem dividend_inverses_c7_witness :
    monthly_dividend_income 1000000 3 = 2500
    ∧ required_principal_for_dividend 20000 3 = Except.ok 8000000 := by
  have h := (dividend_inverses_c7 20000 1000000 3).1 (by norm_num)
  refine ⟨by norm_num [monthly_dividend_income], ?_⟩
  rw [h.1]
  norm_num

/-! ### C10: portfolio weight normalization -/

/-- The sum of a list scaled entrywise by `(· / s * 100)`. -/
lemma sum_map_div_mul (l : List ℚ) (s : ℚ) :
    (l.map (fun w => w / s * 100)).sum = l.sum / s * 100 := by
  induction l with
  | nil => simp
  | cons a l ih =>
    simp only [List.map_cons, List.sum_cons, ih]
    ring

/-- C10: the portfolio calculation errors exactly when the total input
weight is `≤ 0`, and for a positive total the normalized weights
(each weight divided by the total and scaled by 100) sum to exactly
100. -/
theorem portfolio_normalize_c10 (weights : List ℚ) :
    ((∃ msg, normalize_weights weights = Except.error msg) ↔ weights.sum ≤ 0)
    ∧ (0 < weights.sum →
      normalize_weights weights
        = Except.ok (weights.map (fun w => w / weights.sum * 100))
      ∧ (weights.map (fun w => w / weights.sum * 100)).sum = 100) := by
  constructor
  · unfold normalize_weights
    by_cases hle : weights.sum ≤ 0
    · rw [if_pos hle]
      simp only [Except.error.injEq, exists_eq']
      exact iff_of_true trivial hle
    · rw [if_neg hle]
      simp only [reduceCtorEq, exists_false]
      exact iff_of_false (fun h => h) hle
  · intro hpos
    refine ⟨?_, ?_⟩
    · unfold normalize_weights
      rw [if_neg (not_le.mpr hpos)]
    · rw [sum_map_div_mul, div_self (ne_of_gt hpos)]
      norm_num

/-- Witness for C10 on weights `[1, 2, 5]` (an input scale other than
100): the total is positive and the normalized weights sum to 100. -/
theorem portfolio_normalize_c10_witness :
    (0 : ℚ) < ([1, 2, 5] : List ℚ).sum
    ∧ (normalize_weights [1, 2, 5]
        = Except.ok (([1, 2, 5] : List ℚ).map
            (fun w => w / ([1, 2, 5] : List ℚ).sum * 100))
      ∧ (([1, 2, 5] : List ℚ).map
          (fun w => w / ([1, 2, 5] : List ℚ).sum * 100)).sum = 100) :=
  ⟨by norm_num, (portfolio_normalize_c10 [1, 2, 5]).2 (by norm_num)⟩

/-! ### C1: goal-seek is an exact left-inverse of `fv_with_principal` -/

/-- C1: whenever `solve_pmt_for_target_fv` returns a payment (the factor
is not degenerate, so no error is raised), feeding that payment back
through `fv_with_principal` reproduces the target future value
exactly. -/
theorem solve_pmt_left_inverse_c1 (fv_target pv i : ℚ) (n : ℕ) (due : Bool)
    (pmt : ℚ) (h : solve_pmt_for_target_fv fv_target pv i n due = Except.ok pmt) :
    fv_with_principal pv pmt i n due = fv_target := by
  unfold solve_pmt_for_target_fv at h
  by_cases hf : |annuity_factor i n due| < 1 / 10 ^ 12
  · rw [if_pos hf] at h
    exact absurd h (by simp)
  · rw [if_neg hf] at h
    have hfac : annuity_factor i n due ≠ 0 := by
      intro h0
      exact hf (by rw [h0]; norm_num)
    simp only [Except.ok.injEq] at h
    unfold fv_with_principal
    rw [fv_annuity_eq_factor, ← h, div_mul_cancel₀ _ hfac]
    ring

/-- Witness for C1 near the spec's example (months 240, principal 0,
target 5,000,000, a rate with a non-degenerate factor): the solved
payment round-trips through `fv_with_principal`. -/
theorem solve_pmt_left_inverse_c1_witness :
    solve_pmt_for_target_fv 5000000 0 0 240 false = Except.ok (62500 / 3)
    ∧ fv_with_principal 0 (62500 / 3) 0 240 false = 5000000 := by
  have h : solve_pmt_for_target_fv 5000000 0 0 240 false = Except.ok (62500 / 3) := by
    have hfac : annuity_factor 0 240 false = 240 := by norm_num [annuity_factor]
    unfold solve_pmt_for_target_fv
    rw [hfac, if_neg (by rw [abs_of_pos] <;> norm_num)]
    norm_num
  exact ⟨h, solve_pmt_left_inverse_c1 5000000 0 0 240 false (62500 / 3) h⟩

/-! ### C9: goal-seek raises on a degenerate factor -/

/-- C9: `solve_pmt_for_target_fv` raises the degenerate-factor error
exactly when the annuity factor is numerically degenerate (its absolute
value is below the code's `1e-12` guard), and in particular it raises
whenever the month count is 0 and the rate is 0. -/
theorem solve_pmt_degenerate_c9 (fv_target pv i : ℚ) (n : ℕ) (due : Bool) :
    ((∃ msg, solve_pmt_for_target_fv fv_target pv i n due = Except.error msg)
      ↔ |annuity_factor i n due| < 1 / 10 ^ 12)
    ∧ (n = 0 → i = 0 →
      ∃ msg, solve_pmt_for_target_fv fv_target pv i n due = Except.error msg) := by
  have herr : ∀ (m : ℕ) (j : ℚ),
      (∃ msg, solve_pmt_for_target_fv fv_target pv j m due = Except.error msg)
        ↔ |annuity_factor j m due| < 1 / 10 ^ 12 := by
    intro m j
    unfold solve_pmt_for_target_fv
    by_cases hf : |annuity_factor j m due| < 1 / 10 ^ 12
    · rw [if_pos hf]
      simp only [Except.error.injEq, exists_eq']
      exact iff_of_true trivial hf
    · rw [if_neg hf]
      simp only [reduceCtorEq, exists_false]
      exact iff_of_false (fun h => h) hf
  refine ⟨herr n i, ?_⟩
  rintro rfl rfl
  refine (herr 0 0).mpr ?_
  cases due <;> norm_num [annuity_factor]

/-- Witness for C9: at months 0 and rate 0 the goal-seek raises. -/
theorem solve_pmt_degenerate_c9_witness :
    ∃ msg, solve_pmt_for_target_fv 1 2 0 0 false = Except.error msg :=
  (solve_pmt_degenerate_c9 1 2 0 0 false).2 rfl rfl

/-! ### C3: growth simulation agrees with the closed form -/

/-- The last entry of the simulated path is the `n`-fold iterate of the
loop body. -/
lemma simulate_growth_getLast (pv pmt i : ℚ) (due : Bool) (n : ℕ) :
    (simulate_growth pv pmt i n due).getLast?
      = some ((growth_step pmt i due)^[n] pv) := by
  unfold simulate_growth
  induction n generalizing pv with
  | zero => simp [growth_go]
  | succ n ih =>
    rw [growth_go, List.getLast?_cons_cons, ih (growth_step pmt i due pv),
      ← Function.iterate_succ_apply]

/-- Iterating the loop body `n` times from `pv` gives the closed-form
principal-plus-annuity future value. -/
lemma growth_step_iterate (pv pmt i : ℚ) (due : Bool) (n : ℕ) :
    (growth_step pmt i due)^[n] pv = fv_with_principal pv pmt i n due := by
  induction n with
  | zero =>
    simp only [Function.iterate_zero, id_eq]
    unfold fv_with_principal fv_annuity
    split_ifs <;> push_cast <;> ring
  | succ n ih =>
    rw [Function.iterate_succ_apply', ih]
    unfold growth_step fv_with_principal fv_annuity
    by_cases hi : i = 0
    · subst hi
      split_ifs <;> push_cast <;> first | ring1 | simp_all
    · split_ifs <;> push_cast <;> field_simp <;> ring

/-- C3: for every principal, payment, monthly rate, month count and
timing flag, the final element of `simulate_growth` equals the
closed-form `fv_with_principal` over exact arithmetic. -/
theorem simulate_growth_matches_closed_form_c3 (pv pmt i : ℚ) (n : ℕ) (due : Bool) :
    (simulate_growth pv pmt i n due).getLast?
      = some (fv_with_principal pv pmt i n due) := by
  rw [simulate_growth_getLast, growth_step_iterate]

/-! ### C2: drawdown simulation invariants -/

/-- The loop appends at most `m` balances. -/
lemma drawdown_go_length_le {K : Type} [LinearOrderedField K] (j w : K)
    (bal : K) (m : ℕ) : (drawdown_go j w bal m).length ≤ m := by
  induction m generalizing bal with
  | zero => simp [drawdown_go]
  | succ m ih =>
    rw [drawdown_go]
    split_ifs
    · simp
    · simpa using Nat.succ_le_succ (ih (drawdown_step j w bal))

/-- Every balance appended by the loop is floored at zero. -/
lemma drawdown_go_nonneg {K : Type} [LinearOrderedField K] (j w : K)
    (bal : K) (m : ℕ) : ∀ x ∈ drawdown_go j w bal m, 0 ≤ x := by
  induction m generalizing bal with
  | zero => simp [drawdown_go]
  | succ m ih =>
    intro x hx
    rw [drawdown_go] at hx
    split_ifs at hx
    · rw [List.mem_singleton] at hx
      rw [hx]
      exact le_max_right _ _
    · rcases List.mem_cons.mp hx with rfl | hx2
      · exact le_max_right _ _
      · exact ih (drawdown_step j w bal) x hx2

/-- The loop stops early exactly when the raw running balance hits zero
or below strictly before the requested number of steps. -/
lemma drawdown_go_length_lt_iff {K : Type} [LinearOrderedField K] (j w : K)
    (bal : K) (m : ℕ) :
    (drawdown_go j w bal m).length < m
      ↔ ∃ t, 0 < t ∧ t < m ∧ (drawdown_step j w)^[t] bal ≤ 0 := by
  induction m generalizing bal with
  | zero => simp [drawdown_go]
  | succ m ih =>
    rw [drawdown_go]
    by_cases hb : drawdown_step j w bal ≤ 0
    · rw [if_pos hb]
      simp only [List.length_singleton]
      constructor
      · intro h1
        exact ⟨1, Nat.one_pos, h1, by simpa using hb⟩
      · rintro ⟨t, ht0, htm, _⟩
        omega
    · rw [if_neg hb]
      push_neg at hb
      simp only [List.length_cons]
      rw [Nat.succ_lt_succ_iff, ih (drawdown_step j w bal)]
      constructor
      · rintro ⟨t, ht0, htm, hit⟩
        refine ⟨t + 1, Nat.succ_pos t, Nat.succ_lt_succ htm, ?_⟩
        rw [Function.iterate_succ_apply]
        exact hit
      · rintro ⟨t, ht0, htm, hit⟩
        rcases t with _ | s
        · omega
        rcases Nat.eq_zero_or_pos s with rfl | hs
        · rw [Function.iterate_one] at hit
          exact absurd hit (not_le.mpr hb)
        · refine ⟨s, hs, by omega, ?_⟩
          rw [Function.iterate_succ_apply] at hit
          exact hit

/-- When the first loop step already depletes the balance, the loop
appends exactly one floored entry. -/
lemma drawdown_go_succ_stop {K : Type} [LinearOrderedField K] (j w bal : K)
    (m : ℕ) (h : drawdown_step j w bal ≤ 0) :
    drawdown_go j w bal (m + 1) = [max (drawdown_step j w bal) 0] := by
  rw [drawdown_go, if_pos h]

/-- C2 (amended to a non-negative starting corpus): the drawdown path
contains no negative balance, has length at most `months + 1`, and is
strictly shorter than `months + 1` exactly when the running balance is
depleted (hits zero or below) strictly before the requested term
ends. -/
theorem simulate_drawdown_c2 (corpus w pct : ℝ) (months : ℕ)
    (hc : 0 ≤ corpus) :
    (∀ x ∈ simulate_drawdown corpus w pct months, 0 ≤ x)
    ∧ (simulate_drawdown corpus w pct months).length ≤ months + 1
    ∧ ((simulate_drawdown corpus w pct months).length < months + 1
      ↔ ∃ t, 0 < t ∧ t < months
          ∧ (drawdown_step (annual_to_monthly_rate pct) w)^[t] corpus ≤ 0) := by
  unfold simulate_drawdown simulate_drawdown_core
  refine ⟨?_, ?_, ?_⟩
  · intro x hx
    rcases List.mem_cons.mp hx with rfl | hx2
    · exact hc
    · exact drawdown_go_nonneg _ _ _ _ x hx2
  · simpa using Nat.succ_le_succ (drawdown_go_length_le _ _ corpus months)
  · simp only [List.length_cons]
    rw [Nat.succ_lt_succ_iff]
    exact drawdown_go_length_lt_iff _ _ corpus months

/-- Counterexample to C2 as stated: the head of the returned list is the
starting corpus itself, not floored at zero, so with a negative corpus
the list contains a negative balance. -/
theorem simulate_drawdown_c2_counterexample :
    ¬ ∀ x ∈ simulate_drawdown (-1) 0 0 1, (0 : ℝ) ≤ x := by
  intro h
  have hm : (-1 : ℝ) ∈ simulate_drawdown (-1) 0 0 1 := by
    unfold simulate_drawdown simulate_drawdown_core
    exact List.mem_cons_self _ _
  linarith [h (-1) hm]

/-- Witness for C2 at the spec's example: corpus 100, withdrawal 1000,
return 0% satisfies the invariants and depletes after one step, the path
being exactly `[100, 0]`. -/
theorem simulate_drawdown_c2_witness :
    ((0 : ℝ) ≤ 100
    ∧ ((∀ x ∈ simulate_drawdown 100 1000 0 5, 0 ≤ x)
      ∧ (simulate_drawdown 100 1000 0 5).length ≤ 5 + 1
      ∧ ((simulate_drawdown 100 1000 0 5).length < 5 + 1
        ↔ ∃ t, 0 < t ∧ t < 5
            ∧ (drawdown_step (annual_to_monthly_rate 0) 1000)^[t] (100 : ℝ) ≤ 0)))
    ∧ simulate_drawdown 100 1000 0 5 = [100, 0] := by
  refine ⟨⟨by norm_num, simulate_drawdown_c2 100 1000 0 5 (by norm_num)⟩, ?_⟩
  unfold simulate_drawdown simulate_drawdown_core
  rw [annual_to_monthly_rate_zero]
  have hstep : drawdown_step (0 : ℝ) 1000 100 = -900 := by
    unfold drawdown_step; norm_num
  have h5 : (5 : ℕ) = 4 + 1 := rfl
  rw [h5, drawdown_go_succ_stop 0 1000 100 4 (by rw [hstep]; norm_num), hstep]
  have hmax : max (-900 : ℝ) 0 = 0 := max_eq_right (by norm_num)
  rw [hmax]

/-! ### C4 and C5: fixed-term retirement withdrawal -/

/-- For an annual rate above `-100%` the monthly growth multiplier
`1 + annual_to_monthly_rate pct` is positive. -/
lemma one_add_monthly_rate_pos {pct : ℝ} (h : -100 < pct) :
    0 < 1 + annual_to_monthly_rate pct := by
  have hx : (0 : ℝ) < 1 + pct / 100 := by linarith
  have := Real.rpow_pos_of_pos hx ((1 : ℝ) / 12)
  unfold annual_to_monthly_rate
  linarith

/-- C4 (amended): with zero annual return, `monthly_withdraw_for_years`
returns exactly `corpus / m` where `m = round(years * 12)` is the
rounded month count computed by the code, whenever that count is
positive. -/
theorem monthly_withdraw_zero_rate_c4 (corpus years : ℝ)
    (h : 0 < pyround (years * 12)) :
    monthly_withdraw_for_years corpus 0 years
      = Except.ok (corpus / (pyround (years * 12) : ℝ)) := by
  unfold monthly_withdraw_for_years
  rw [if_neg (not_le.mpr h), if_pos annual_to_monthly_rate_zero]

/-- Witness for C4 at corpus 100 and 5 years: 60 months, payout
`100 / 60`. -/
theorem monthly_withdraw_zero_rate_c4_witness :
    0 < pyround ((5 : ℝ) * 12)
    ∧ monthly_withdraw_for_years 100 0 5
        = Except.ok (100 / (pyround ((5 : ℝ) * 12) : ℝ)) := by
  have h60 : pyround ((5 : ℝ) * 12) = 60 := by
    rw [show ((5 : ℝ) * 12) = ((60 : ℤ) : ℝ) by norm_num, pyround_intCast]
  exact ⟨by rw [h60]; norm_num,
    monthly_withdraw_zero_rate_c4 100 5 (by rw [h60]; norm_num)⟩

/-- Counterexample to C4 as stated: at `years = 1/10` the code rounds
`years * 12 = 1.2` down to one month and returns the full corpus, which
differs from `corpus / (years * 12)`. -/
theorem monthly_withdraw_zero_rate_c4_counterexample :
    monthly_withdraw_for_years 12 0 (1 / 10) = Except.ok 12
    ∧ (12 : ℝ) ≠ 12 / ((1 / 10) * 12) := by
  have hp : pyround (((1 : ℝ) / 10) * 12) = 1 := by
    rw [show ((1 : ℝ) / 10) * 12 = 6 / 5 by norm_num]
    unfold pyround
    rw [show ⌊(6 / 5 : ℝ)⌋ = 1 by rw [Int.floor_eq_iff]; norm_num]
    norm_num
  constructor
  · rw [monthly_withdraw_zero_rate_c4 12 (1 / 10) (by rw [hp]; norm_num), hp]
    norm_num
  · norm_num

/-- C5 (amended): the non-positive-term error is raised exactly when the
rounded month count `round(years * 12)` is not positive (in particular
for every `years ≤ 0`, but also for small positive terms that round to
zero months); when the rounded count is positive and the annual return
is above `-100%`, the function returns a value. -/
theorem monthly_withdraw_term_error_c5 (corpus pct years : ℝ) :
    (monthly_withdraw_for_years corpus pct years
        = Except.error "退休年期需大於 0。"
      ↔ pyround (years * 12) ≤ 0)
    ∧ (-100 < pct → 0 < pyround (years * 12) →
      ∃ v, monthly_withdraw_for_years corpus pct years = Except.ok v) := by
  constructor
  · unfold monthly_withdraw_for_years
    split_ifs with h1 h2 h3 h4
    · exact iff_of_true rfl h1
    · exact iff_of_false (by simp) h1
    · refine iff_of_false (fun h => ?_) h1
      have := Except.error.inj h
      simp_all
    · refine iff_of_false (fun h => ?_) h1
      have := Except.error.inj h
      simp_all
    · exact iff_of_false (by simp) h1
  · intro hpct hm
    unfold monthly_withdraw_for_years
    rw [if_neg (not_le.mpr hm)]
    by_cases hj : annual_to_monthly_rate pct = 0
    · rw [if_pos hj]
      exact ⟨_, rfl⟩
    · rw [if_neg hj]
      have hb : 0 < 1 + annual_to_monthly_rate pct := one_add_monthly_rate_pos hpct
      rw [if_neg (ne_of_gt hb)]
      have hb1 : 1 + annual_to_monthly_rate pct ≠ 1 := fun h1 => hj (by linarith)
      have hz : (1 + annual_to_monthly_rate pct) ^ (-(pyround (years * 12))) ≠ 1 := by
        intro h1
        have h0 : (1 + annual_to_monthly_rate pct) ^ (-(pyround (years * 12)))
            = (1 + annual_to_monthly_rate pct) ^ (0 : ℤ) := by
          rw [h1, zpow_zero]
        have := zpow_right_injective₀ hb hb1 h0
        omega
      rw [if_neg (fun h0 => hz (by linarith))]
      exact ⟨_, rfl⟩

/-- Witness for C5: at 7% annual return and 5 years the function returns
a value. -/
theorem monthly_withdraw_term_error_c5_witness :
    (-100 : ℝ) < 7 ∧ 0 < pyround ((5 : ℝ) * 12)
    ∧ ∃ v, monthly_withdraw_for_years 100 7 5 = Except.ok v := by
  have h60 : pyround ((5 : ℝ) * 12) = 60 := by
    rw [show ((5 : ℝ) * 12) = ((60 : ℤ) : ℝ) by norm_num, pyround_intCast]
  exact ⟨by norm_num, by rw [h60]; norm_num,
    (monthly_withdraw_term_error_c5 100 7 5).2 (by norm_num) (by rw [h60]; norm_num)⟩

/-- Counterexample to C5 as stated: `years = 1/30` is a positive term,
yet `years * 12 = 0.4` rounds to zero months and the function raises the
non-positive-term error instead of returning a value. -/
theorem monthly_withdraw_term_error_c5_counterexample :
    (0 : ℝ) < 1 / 30
    ∧ monthly_withdraw_for_years 100 0 (1 / 30)
        = Except.error "退休年期需大於 0。" := by
  have hp : pyround (((1 : ℝ) / 30) * 12) = 0 := by
    rw [show ((1 : ℝ) / 30) * 12 = 2 / 5 by norm_num]
    unfold pyround
    rw [show ⌊(2 / 5 : ℝ)⌋ = 0 by rw [Int.floor_eq_iff]; norm_num]
    norm_num
  refine ⟨by norm_num, ?_⟩
  unfold monthly_withdraw_for_years
  rw [hp]
  norm_num

end EtfSaver
